import Mathlib

/-!
# node::util (src/node_util.cc): engine introspection bridge

A shallow embedding of the binding functions of `src/node_util.cc` and the
properties of them that the specification states.

Modelling conventions.

* A `v8::Value` handle is opaque to this file: the code only asks the engine
  kind predicates about it (`v->IsArray()` ...), takes its identity, or asks
  for its `Uint32Value`.  `Value` records exactly those answers.
* `uint64_t`/`uint32_t` quantities are `Nat`, with an explicit `% 2 ^ 32`
  wherever the code narrows.
* A binding function `void F(const FunctionCallbackInfo<Value>& args)` becomes
  a function from the isolate state and the argument list to the new isolate
  state and a `Completion`: either the process aborted on a failed `CHECK`
  (or on unwrapping an empty `Maybe`), or the call returned with the content
  of `args.GetReturnValue()` (`none` when it was never set, which JavaScript
  observes as `undefined`).
-/

namespace node
namespace util

/-! ## Values -/

/-- The engine kind predicates on `v8::Value` that `node_util.cc` calls. -/
inductive Kind
  | IsArgumentsObject | IsArrayBuffer | IsArrayBufferView | IsArray
  | IsBooleanObject | IsBoolean | IsDataView | IsDate | IsExternal | IsFalse
  | IsFloat32Array | IsFloat64Array | IsFunction | IsGeneratorFunction
  | IsGeneratorObject | IsInt16Array | IsInt32Array | IsInt32 | IsInt8Array
  | IsMapIterator | IsMap | IsName | IsNativeError | IsNull | IsNumberObject
  | IsNumber | IsObject | IsPromise | IsRegExp | IsSetIterator | IsSet
  | IsStringObject | IsString | IsSymbolObject | IsSymbol | IsTrue
  | IsTypedArray | IsUint16Array | IsUint32Array | IsUint32 | IsUint8Array
  | IsUint8ClampedArray | IsUndefined | IsWeakMap | IsWeakSet
  | IsAsyncFunction | IsProxy | IsSharedArrayBuffer
  deriving DecidableEq, Repr

/-- A `v8::Local<v8::Value>` as this file can observe it: the identity of the
engine object behind the handle, the kind predicates the engine answers with
`true`, and the number `Uint32Value` yields for it. -/
structure Value where
  handle : Nat
  kinds : List Kind
  uint32 : Nat
  deriving DecidableEq, Repr

/-- The engine's answer to the kind predicate `k` on `v`, as in `v->IsArray()`. -/
def Value.is (v : Value) (k : Kind) : Bool := v.kinds.contains k

/-- The `undefined` value, which `args[i]` yields for `i` outside the
argument list. -/
def Value.undefined : Value := { handle := 0, kinds := [Kind.IsUndefined], uint32 := 0 }

/-- The indexing `args[i]` of `FunctionCallbackInfo`: the `i`-th argument, and
`undefined` past the end. -/
def arg (args : List Value) (i : Nat) : Value := args.getD i Value.undefined

/-! ## Type classification encoder -/

/-- The function `GetTypeFlags` (lines 179-228): one `if` per predicate, each
OR-ing its constant into the `uint64_t` accumulator. -/
def GetTypeFlags (v : Value) : Nat :=
  let result := 0
  let result := if v.is Kind.IsArgumentsObject then result ||| 0x0000000000000001 else result
  let result := if v.is Kind.IsArrayBuffer then result ||| 0x0000000000000002 else result
  let result := if v.is Kind.IsArrayBufferView then result ||| 0x0000000000000004 else result
  let result := if v.is Kind.IsArray then result ||| 0x0000000000000008 else result
  let result := if v.is Kind.IsBooleanObject then result ||| 0x0000000000000010 else result
  let result := if v.is Kind.IsBoolean then result ||| 0x0000000000000020 else result
  let result := if v.is Kind.IsDataView then result ||| 0x0000000000000040 else result
  let result := if v.is Kind.IsDate then result ||| 0x0000000000000080 else result
  let result := if v.is Kind.IsExternal then result ||| 0x0000000000000100 else result
  let result := if v.is Kind.IsFalse then result ||| 0x0000000000000200 else result
  let result := if v.is Kind.IsFloat32Array then result ||| 0x0000000000000400 else result
  let result := if v.is Kind.IsFloat64Array then result ||| 0x0000000000000800 else result
  let result := if v.is Kind.IsFunction then result ||| 0x0000000000001000 else result
  let result := if v.is Kind.IsGeneratorFunction then result ||| 0x0000000000002000 else result
  let result := if v.is Kind.IsGeneratorObject then result ||| 0x0000000000004000 else result
  let result := if v.is Kind.IsInt16Array then result ||| 0x0000000000008000 else result
  let result := if v.is Kind.IsInt32Array then result ||| 0x0000000000010000 else result
  let result := if v.is Kind.IsInt32 then result ||| 0x0000000000020000 else result
  let result := if v.is Kind.IsInt8Array then result ||| 0x0000000000040000 else result
  let result := if v.is Kind.IsMapIterator then result ||| 0x0000000000080000 else result
  let result := if v.is Kind.IsMap then result ||| 0x0000000000100000 else result
  let result := if v.is Kind.IsName then result ||| 0x0000000000200000 else result
  let result := if v.is Kind.IsNativeError then result ||| 0x0000000000400000 else result
  let result := if v.is Kind.IsNull then result ||| 0x0000000000800000 else result
  let result := if v.is Kind.IsNumberObject then result ||| 0x0000000001000000 else result
  let result := if v.is Kind.IsNumber then result ||| 0x0000000002000000 else result
  let result := if v.is Kind.IsObject then result ||| 0x0000000004000000 else result
  let result := if v.is Kind.IsPromise then result ||| 0x0000000008000000 else result
  let result := if v.is Kind.IsRegExp then result ||| 0x0000000010000000 else result
  let result := if v.is Kind.IsSetIterator then result ||| 0x0000000020000000 else result
  let result := if v.is Kind.IsSet then result ||| 0x0000000040000000 else result
  let result := if v.is Kind.IsStringObject then result ||| 0x0000000080000000 else result
  let result := if v.is Kind.IsString then result ||| 0x0000000100000000 else result
  let result := if v.is Kind.IsSymbolObject then result ||| 0x0000000200000000 else result
  let result := if v.is Kind.IsSymbol then result ||| 0x0000000400000000 else result
  let result := if v.is Kind.IsTrue then result ||| 0x0000000800000000 else result
  let result := if v.is Kind.IsTypedArray then result ||| 0x0000001000000000 else result
  let result := if v.is Kind.IsUint16Array then result ||| 0x0000002000000000 else result
  let result := if v.is Kind.IsUint32Array then result ||| 0x0000004000000000 else result
  let result := if v.is Kind.IsUint32 then result ||| 0x0000008000000000 else result
  let result := if v.is Kind.IsUint8Array then result ||| 0x0000010000000000 else result
  let result := if v.is Kind.IsUint8ClampedArray then result ||| 0x0000020000000000 else result
  let result := if v.is Kind.IsUndefined then result ||| 0x0000040000000000 else result
  let result := if v.is Kind.IsWeakMap then result ||| 0x0000080000000000 else result
  let result := if v.is Kind.IsWeakSet then result ||| 0x0000100000000000 else result
  result

/-- The 45 predicates of `GetTypeFlags` in source order, line 182 to line 226. -/
def typeFlagPredicates : List Kind :=
  [ Kind.IsArgumentsObject, Kind.IsArrayBuffer, Kind.IsArrayBufferView, Kind.IsArray,
    Kind.IsBooleanObject, Kind.IsBoolean, Kind.IsDataView, Kind.IsDate, Kind.IsExternal,
    Kind.IsFalse, Kind.IsFloat32Array, Kind.IsFloat64Array, Kind.IsFunction,
    Kind.IsGeneratorFunction, Kind.IsGeneratorObject, Kind.IsInt16Array, Kind.IsInt32Array,
    Kind.IsInt32, Kind.IsInt8Array, Kind.IsMapIterator, Kind.IsMap, Kind.IsName,
    Kind.IsNativeError, Kind.IsNull, Kind.IsNumberObject, Kind.IsNumber, Kind.IsObject,
    Kind.IsPromise, Kind.IsRegExp, Kind.IsSetIterator, Kind.IsSet, Kind.IsStringObject,
    Kind.IsString, Kind.IsSymbolObject, Kind.IsSymbol, Kind.IsTrue, Kind.IsTypedArray,
    Kind.IsUint16Array, Kind.IsUint32Array, Kind.IsUint32, Kind.IsUint8Array,
    Kind.IsUint8ClampedArray, Kind.IsUndefined, Kind.IsWeakMap, Kind.IsWeakSet ]

/-- An element stored into a result array by this file. -/
inductive Elem
  | value (v : Value)
  | int32 (n : Int)
  | uint32 (n : Nat)
  deriving DecidableEq, Repr

/-- The constructor `Integer::NewFromUnsigned(isolate, uint32_t value)`: its
parameter is a 32-bit unsigned integer, so a wider argument is narrowed
modulo `2 ^ 32` at the call. -/
def Integer.NewFromUnsigned (value : Nat) : Elem := Elem.uint32 (value % 2 ^ 32)

/-- The loop of `GetFunctionArgTypes` (lines 234-238), entered with counter
`i` and the array built so far. -/
def GetFunctionArgTypes.loop (args : List Value) (i : Nat) (ret : List (Option Elem)) :
    List (Option Elem) :=
  if i < args.length then
    let v := arg args i
    let typeValue := GetTypeFlags v
    GetFunctionArgTypes.loop args (i + 1) (ret.set i (some (Integer.NewFromUnsigned typeValue)))
  else ret
termination_by args.length - i

/-- The array `GetFunctionArgTypes` hands to `args.GetReturnValue()`
(lines 230-241): `Array::New(isolate, args.Length())` is an array of that many
holes, which the loop then fills. -/
def GetFunctionArgTypes.array (args : List Value) : List (Option Elem) :=
  GetFunctionArgTypes.loop args 0 (List.replicate args.length none)

/-- What a binding function leaves in `args.GetReturnValue()`. -/
inductive Ret
  | value (v : Value)
  | boolean (b : Bool)
  | string (s : String)
  | array (elems : List (Option Elem))
  deriving DecidableEq, Repr

/-- How a call of a binding function ends: the process aborted (a failed
`CHECK`, or `ToLocalChecked`/`FromJust` on an empty result), or the call
returned; `returned none` is a call that never set its return value. -/
inductive Completion
  | aborted
  | returned (rv : Option Ret)
  deriving DecidableEq, Repr

/-! ## Engine state and engine operations -/

/-- The enumeration `v8::Promise::PromiseState`. -/
inductive PromiseState
  | kPending | kFulfilled | kRejected
  deriving DecidableEq, Repr

/-- The integer value of a `PromiseState` enumerator, as taken by
`int state = promise->State()`. -/
def PromiseState.toInt : PromiseState → Int
  | PromiseState.kPending => 0
  | PromiseState.kFulfilled => 1
  | PromiseState.kRejected => 2

/-- A `v8::Local<v8::Private>`: an opaque per-isolate private key. -/
structure Private where
  id : Nat
  deriving DecidableEq, Repr

/-- The engine operations whose invocation the properties below speak about. -/
inductive EngineCall
  | GetPrivate (obj : Nat) (key : Private)
  | SetPrivate (obj : Nat) (key : Private) (value : Value)
  | Resolve (promise : Nat) (value : Value)
  | Reject (promise : Nat) (value : Value)
  | ResolverNew
  deriving DecidableEq, Repr

/-- The engine state this file reads or drives: the private-property store
(object identity and private key to value), the internal state and result
slot of every promise, the target and handler of every proxy, and the record
of the engine operations invoked so far. -/
structure Isolate where
  privates : Nat → Private → Option Value
  promiseState : Nat → PromiseState
  promiseResult : Nat → Value
  proxyTarget : Nat → Value
  proxyHandler : Nat → Value
  calls : List EngineCall

/-- The engine operations whose outcome this file does not determine. `none`
is an empty `MaybeLocal` or a `Nothing` of `Maybe`. -/
structure Engine where
  ToDetailString : Isolate → Value → Option String
  ResolverNew : Isolate → Isolate × Option Value
  Resolve : Isolate → Value → Value → Isolate × Option Bool
  Reject : Isolate → Value → Value → Isolate × Option Bool

/-- The call `Promise::Resolver::New(context)`. -/
def Engine.resolverNew (E : Engine) (iso : Isolate) : Isolate × Option Value :=
  E.ResolverNew { iso with calls := iso.calls ++ [EngineCall.ResolverNew] }

/-- The call `resolver->Resolve(context, value)`. -/
def Engine.resolve (E : Engine) (iso : Isolate) (resolver value : Value) :
    Isolate × Option Bool :=
  E.Resolve { iso with calls := iso.calls ++ [EngineCall.Resolve resolver.handle value] }
    resolver value

/-- The call `resolver->Reject(context, value)`. -/
def Engine.reject (E : Engine) (iso : Isolate) (resolver value : Value) :
    Isolate × Option Bool :=
  E.Reject { iso with calls := iso.calls ++ [EngineCall.Reject resolver.handle value] }
    resolver value

/-- The call `obj->GetPrivate(context, key)`: the value stored under the key
on that object, `undefined` when there is none. -/
def Object.GetPrivate (iso : Isolate) (obj : Value) (key : Private) :
    Isolate × Option Value :=
  ({ iso with calls := iso.calls ++ [EngineCall.GetPrivate obj.handle key] },
   some ((iso.privates obj.handle key).getD Value.undefined))

/-- The call `obj->SetPrivate(context, key, value)`: stores the value under
the key on that object. -/
def Object.SetPrivate (iso : Isolate) (obj : Value) (key : Private) (value : Value) :
    Isolate × Option Bool :=
  ({ iso with
      privates := fun o k =>
        if o = obj.handle ∧ k = key then some value else iso.privates o k
      calls := iso.calls ++ [EngineCall.SetPrivate obj.handle key value] },
   some true)

/-- The call `v->Uint32Value(context)`, a `Maybe<uint32_t>`. -/
def Value.Uint32Value (v : Value) : Option Nat := some (v.uint32 % 2 ^ 32)

/-! ## Predicate bindings and state introspectors -/

/-- The binding the line `V(_, ucname)` of `VALUE_METHOD_MAP` defines for the
predicate `ucname` (lines 38-45). -/
def ValueMethod (ucname : Kind) (iso : Isolate) (args : List Value) : Isolate × Completion :=
  if args.length ≠ 1 then (iso, Completion.aborted)
  else (iso, Completion.returned (some (Ret.boolean ((arg args 0).is ucname))))

/-- The function `IsAnyArrayBuffer` (lines 47-51). -/
def IsAnyArrayBuffer (iso : Isolate) (args : List Value) : Isolate × Completion :=
  if args.length ≠ 1 then (iso, Completion.aborted)
  else (iso, Completion.returned (some (Ret.boolean
    ((arg args 0).is Kind.IsArrayBuffer || (arg args 0).is Kind.IsSharedArrayBuffer))))

/-- The function `GetProxyDetails` (lines 71-83). -/
def GetProxyDetails (iso : Isolate) (args : List Value) : Isolate × Completion :=
  if !(arg args 0).is Kind.IsProxy then (iso, Completion.returned none)
  else
    let proxy := arg args 0
    let ret : List (Option Elem) := List.replicate 2 none
    let ret := ret.set 0 (some (Elem.value (iso.proxyTarget proxy.handle)))
    let ret := ret.set 1 (some (Elem.value (iso.proxyHandler proxy.handle)))
    (iso, Completion.returned (some (Ret.array ret)))

/-- The function `GetPromiseDetails` (lines 53-69). -/
def GetPromiseDetails (iso : Isolate) (args : List Value) : Isolate × Completion :=
  if !(arg args 0).is Kind.IsPromise then (iso, Completion.returned none)
  else
    let promise := arg args 0
    let ret : List (Option Elem) := List.replicate 2 none
    let state := (iso.promiseState promise.handle).toInt
    let ret := ret.set 0 (some (Elem.int32 state))
    let ret :=
      if state != PromiseState.kPending.toInt then
        ret.set 1 (some (Elem.value (iso.promiseResult promise.handle)))
      else ret
    (iso, Completion.returned (some (Ret.array ret)))

/-- The function `SafeToString` (lines 85-89): `ToLocalChecked` aborts on an
empty result. -/
def SafeToString (E : Engine) (iso : Isolate) (args : List Value) : Isolate × Completion :=
  match E.ToDetailString iso (arg args 0) with
  | none => (iso, Completion.aborted)
  | some s => (iso, Completion.returned (some (Ret.string s)))

/-! ## Private slot indirection table -/

/-- One entry of `PER_ISOLATE_PRIVATE_SYMBOL_PROPERTIES`: the accessor name,
and the key that accessor returns on the environment. -/
structure PrivateSymbol where
  name : String
  key : Private
  deriving DecidableEq, Repr

/-- The part of `Environment` this file uses. The expansion of
`PER_ISOLATE_PRIVATE_SYMBOL_PROPERTIES` is declared outside this file, so the
declared list is a parameter. -/
structure Environment where
  slots : List PrivateSymbol

/-- The function `IndexToPrivateSymbol` (lines 91-99); `none` is the failed
`CHECK_LT(index, arraysize(methods))`. -/
def IndexToPrivateSymbol (env : Environment) (index : Nat) : Option Private :=
  if h : index < env.slots.length then some (env.slots.get ⟨index, h⟩).key
  else none

/-- The function `GetHiddenValue` (lines 101-113). -/
def GetHiddenValue (env : Environment) (iso : Isolate) (args : List Value) :
    Isolate × Completion :=
  if !(arg args 0).is Kind.IsObject then (iso, Completion.aborted)
  else if !(arg args 1).is Kind.IsUint32 then (iso, Completion.aborted)
  else
    let obj := arg args 0
    match (arg args 1).Uint32Value with
    | none => (iso, Completion.aborted)
    | some index =>
      match IndexToPrivateSymbol env index with
      | none => (iso, Completion.aborted)
      | some private_symbol =>
        match Object.GetPrivate iso obj private_symbol with
        | (iso, none) => (iso, Completion.aborted)
        | (iso, some value) => (iso, Completion.returned (some (Ret.value value)))

/-- The function `SetHiddenValue` (lines 115-127). -/
def SetHiddenValue (env : Environment) (iso : Isolate) (args : List Value) :
    Isolate × Completion :=
  if !(arg args 0).is Kind.IsObject then (iso, Completion.aborted)
  else if !(arg args 1).is Kind.IsUint32 then (iso, Completion.aborted)
  else
    let obj := arg args 0
    match (arg args 1).Uint32Value with
    | none => (iso, Completion.aborted)
    | some index =>
      match IndexToPrivateSymbol env index with
      | none => (iso, Completion.aborted)
      | some private_symbol =>
        match Object.SetPrivate iso obj private_symbol (arg args 2) with
        | (iso, none) => (iso, Completion.aborted)
        | (iso, some b) => (iso, Completion.returned (some (Ret.boolean b)))

/-! ## Interrupt latch and promise control primitives -/

/-- The process-wide `SigintWatchdogHelper`, declared in `node_watchdog.h`:
its state type and the three operations this file calls. -/
structure SigintWatchdogHelper (σ : Type) where
  Start : σ → σ × Int
  Stop : σ → σ × Bool
  HasPendingSignal : σ → Bool

/-- The function `StartSigintWatchdog` (lines 130-133). -/
def StartSigintWatchdog {σ : Type} (w : SigintWatchdogHelper σ) (s : σ) : σ × Completion :=
  let r := w.Start s
  let ret := r.2
  (r.1, Completion.returned (some (Ret.boolean (decide (ret = 0)))))

/-- The function `StopSigintWatchdog` (lines 136-139). -/
def StopSigintWatchdog {σ : Type} (w : SigintWatchdogHelper σ) (s : σ) : σ × Completion :=
  let r := w.Stop s
  let had_pending_signals := r.2
  (r.1, Completion.returned (some (Ret.boolean had_pending_signals)))

/-- The function `WatchdogHasPendingSigint` (lines 142-145). -/
def WatchdogHasPendingSigint {σ : Type} (w : SigintWatchdogHelper σ) (s : σ) :
    σ × Completion :=
  let ret := w.HasPendingSignal s
  (s, Completion.returned (some (Ret.boolean ret)))

/-- The function `CreatePromise` (lines 148-153). -/
def CreatePromise (E : Engine) (iso : Isolate) (_args : List Value) : Isolate × Completion :=
  match E.resolverNew iso with
  | (iso, some resolver) => (iso, Completion.returned (some (Ret.value resolver)))
  | (iso, none) => (iso, Completion.returned none)

/-- The function `PromiseResolve` (lines 156-164). -/
def PromiseResolve (E : Engine) (iso : Isolate) (args : List Value) : Isolate × Completion :=
  let promise := arg args 0
  if !promise.is Kind.IsPromise then (iso, Completion.aborted)
  else if iso.promiseState promise.handle != PromiseState.kPending then
    (iso, Completion.returned none)
  else
    let resolver := promise
    let r := E.resolve iso resolver (arg args 1)
    (r.1, Completion.returned (some (Ret.boolean (r.2.getD false))))

/-- The function `PromiseReject` (lines 167-175). -/
def PromiseReject (E : Engine) (iso : Isolate) (args : List Value) : Isolate × Completion :=
  let promise := arg args 0
  if !promise.is Kind.IsPromise then (iso, Completion.aborted)
  else if iso.promiseState promise.handle != PromiseState.kPending then
    (iso, Completion.returned none)
  else
    let resolver := promise
    let r := E.reject iso resolver (arg args 1)
    (r.1, Completion.returned (some (Ret.boolean (r.2.getD false))))

/-- A privileged settlement request on one promise handle. -/
inductive SettleCall
  | resolve (value : Value)
  | reject (value : Value)
  deriving DecidableEq, Repr

/-- Runs a sequence of `PromiseResolve`/`PromiseReject` calls on the promise
`p`, threading the isolate state; the run ends at the first call that aborts
the process. The completions of the calls made are collected in order. -/
def settleCalls (E : Engine) (p : Value) (iso : Isolate) :
    List SettleCall → Isolate × List Completion
  | [] => (iso, [])
  | c :: cs =>
    let r := match c with
      | SettleCall.resolve v => PromiseResolve E iso [p, v]
      | SettleCall.reject v => PromiseReject E iso [p, v]
    match r.2 with
    | Completion.aborted => (r.1, [Completion.aborted])
    | Completion.returned rv =>
      let rest := settleCalls E p r.1 cs
      (rest.1, Completion.returned rv :: rest.2)

/-! ## The batch classifier binding and module initialization -/

/-- The function `GetFunctionArgTypes` (lines 230-241). -/
def GetFunctionArgTypes (iso : Isolate) (args : List Value) : Isolate × Completion :=
  (iso, Completion.returned (some (Ret.array (GetFunctionArgTypes.array args))))

/-- One property installed on the binding object `target` by `Initialize`. -/
inductive Property
  | method (name : String) (fn : String)
  | set (name : String) (value : Elem)
  | readOnly (name : String) (value : Elem)
  deriving DecidableEq, Repr

/-- The expansion of `VALUE_METHOD_MAP(V)` at line 250. -/
def Initialize.valueMethods : List Property :=
  [ Property.method "isArrayBuffer" "IsArrayBuffer",
    Property.method "isArrayBufferView" "IsArrayBufferView",
    Property.method "isAsyncFunction" "IsAsyncFunction",
    Property.method "isDataView" "IsDataView",
    Property.method "isDate" "IsDate",
    Property.method "isExternal" "IsExternal",
    Property.method "isMap" "IsMap",
    Property.method "isMapIterator" "IsMapIterator",
    Property.method "isNativeError" "IsNativeError",
    Property.method "isPromise" "IsPromise",
    Property.method "isRegExp" "IsRegExp",
    Property.method "isSet" "IsSet",
    Property.method "isSetIterator" "IsSetIterator",
    Property.method "isTypedArray" "IsTypedArray",
    Property.method "isUint8Array" "IsUint8Array" ]

/-- The block at lines 255-263: one `target->Set(name, index++)` per declared
private symbol, entered with the `uint32_t` counter at `index`. -/
def Initialize.privateSymbols : List PrivateSymbol → Nat → List Property
  | [], _ => []
  | s :: rest, index =>
    Property.set s.name (Integer.NewFromUnsigned index)
      :: Initialize.privateSymbols rest ((index + 1) % 2 ^ 32)

/-- The function `Initialize` (lines 244-297), as the sequence of properties
it installs on `target`, in program order. `NODE_PUSH_VAL_TO_ARRAY_MAX` is
defined outside this file and is a parameter. -/
def Initialize (env : Environment) (NODE_PUSH_VAL_TO_ARRAY_MAX : Nat) : List Property :=
  Initialize.valueMethods
    ++ [Property.method "isAnyArrayBuffer" "IsAnyArrayBuffer"]
    ++ Initialize.privateSymbols env.slots 0
    ++ [ Property.readOnly "pushValToArrayMax"
           (Integer.NewFromUnsigned NODE_PUSH_VAL_TO_ARRAY_MAX),
         Property.set "kPending" (Elem.int32 PromiseState.kPending.toInt),
         Property.set "kFulfilled" (Elem.int32 PromiseState.kFulfilled.toInt),
         Property.set "kRejected" (Elem.int32 PromiseState.kRejected.toInt),
         Property.method "getHiddenValue" "GetHiddenValue",
         Property.method "setHiddenValue" "SetHiddenValue",
         Property.method "getPromiseDetails" "GetPromiseDetails",
         Property.method "getProxyDetails" "GetProxyDetails",
         Property.method "safeToString" "SafeToString",
         Property.method "startSigintWatchdog" "StartSigintWatchdog",
         Property.method "stopSigintWatchdog" "StopSigintWatchdog",
         Property.method "watchdogHasPendingSigint" "WatchdogHasPendingSigint",
         Property.method "createPromise" "CreatePromise",
         Property.method "promiseResolve" "PromiseResolve",
         Property.method "promiseReject" "PromiseReject",
         Property.method "getFunctionArgTypes" "GetFunctionArgTypes" ]

/-! ## Concrete inputs -/

/-- An isolate in which no private property is stored, every promise handle is
pending, and no engine operation has been invoked. -/
def Isolate.initial : Isolate :=
  { privates := fun _ _ => none
    promiseState := fun _ => PromiseState.kPending
    promiseResult := fun _ => Value.undefined
    proxyTarget := fun _ => Value.undefined
    proxyHandler := fun _ => Value.undefined
    calls := [] }

/-- A primitive string: the engine answers `IsName` and `IsString` for it. -/
def sampleString : Value := { handle := 7, kinds := [Kind.IsName, Kind.IsString], uint32 := 0 }

/-- The number 5: the engine answers `IsNumber`, `IsInt32` and `IsUint32`. -/
def sampleFive : Value :=
  { handle := 8, kinds := [Kind.IsNumber, Kind.IsInt32, Kind.IsUint32], uint32 := 5 }

/-- An ordinary object. -/
def sampleObject : Value := { handle := 9, kinds := [Kind.IsObject], uint32 := 0 }

/-- The number 1, an unsigned 32-bit integer. -/
def sampleOne : Value :=
  { handle := 10, kinds := [Kind.IsNumber, Kind.IsInt32, Kind.IsUint32], uint32 := 1 }

/-- An environment declaring two private symbols. -/
def sampleEnvironment : Environment :=
  { slots := [ { name := "alpn_buffer_private_symbol", key := { id := 100 } },
               { name := "arrow_message_private_symbol", key := { id := 101 } } ] }

/-- A promise object. -/
def samplePromise : Value := { handle := 11, kinds := [Kind.IsObject, Kind.IsPromise], uint32 := 0 }

/-- An isolate in which the promise `samplePromise` is fulfilled with
`sampleFive`. -/
def Isolate.settled : Isolate :=
  { privates := fun _ _ => none
    promiseState := fun h => if h = 11 then PromiseState.kFulfilled else PromiseState.kPending
    promiseResult := fun h => if h = 11 then sampleFive else Value.undefined
    proxyTarget := fun _ => Value.undefined
    proxyHandler := fun _ => Value.undefined
    calls := [] }

/-- An engine all of whose operations succeed: resolving fulfils the promise
with the value, rejecting rejects it with the value. -/
def succeedingEngine : Engine :=
  { ToDetailString := fun _ _ => some "[object Object]"
    ResolverNew := fun iso => (iso, some samplePromise)
    Resolve := fun iso resolver value =>
      ({ iso with
          promiseState := fun h =>
            if h = resolver.handle then PromiseState.kFulfilled else iso.promiseState h
          promiseResult := fun h =>
            if h = resolver.handle then value else iso.promiseResult h },
       some true)
    Reject := fun iso resolver value =>
      ({ iso with
          promiseState := fun h =>
            if h = resolver.handle then PromiseState.kRejected else iso.promiseState h
          promiseResult := fun h =>
            if h = resolver.handle then value else iso.promiseResult h },
       some true) }

/-- An engine all of whose operations report failure: an empty `MaybeLocal`
or a `Nothing`, as while the isolate is terminating execution. -/
def failingEngine : Engine :=
  { ToDetailString := fun _ _ => none
    ResolverNew := fun iso => (iso, none)
    Resolve := fun iso _ _ => (iso, none)
    Reject := fun iso _ _ => (iso, none) }

/-- The accumulation of `GetTypeFlags` over a list of predicates: the
predicate at position `j` of the walk contributes the bit `2 ^ j`. -/
def flagsFrom (v : Value) : List Kind → Nat → Nat → Nat
  | [], _, result => result
  | k :: ks, j, result =>
    flagsFrom v ks (j + 1) (if v.is k then result ||| 2 ^ j else result)

/-! ## Theorems: type classification encoder -/

theorem GetTypeFlags_eq_flagsFrom (v : Value) :
    GetTypeFlags v = flagsFrom v typeFlagPredicates 0 0 := rfl

theorem testBit_flagsFrom (v : Value) (ks : List Kind) (j result i : Nat) :
    (flagsFrom v ks j result).testBit i
      = (result.testBit i || (decide (j ≤ i) && ((ks.get? (i - j)).map v.is).getD false)) := by
  induction ks generalizing j result with
  | nil => simp [flagsFrom]
  | cons k ks ih =>
    rw [flagsFrom, ih]
    have hstep : (if v.is k = true then result ||| 2 ^ j else result).testBit i
        = (result.testBit i || (v.is k && decide (j = i))) := by
      cases v.is k <;> simp [Nat.testBit_two_pow]
    rw [hstep]
    rcases Nat.lt_trichotomy j i with h | h | h
    · have h1 : j ≤ i := Nat.le_of_lt h
      have h2 : j + 1 ≤ i := h
      have h3 : j ≠ i := Nat.ne_of_lt h
      have h4 : i - j = (i - (j + 1)) + 1 := by omega
      simp [h1, h2, h3, h4]
    · subst h
      simp
    · have h1 : ¬ j ≤ i := by omega
      have h2 : ¬ j + 1 ≤ i := by omega
      have h3 : j ≠ i := by omega
      simp [h1, h2, h3]

/-- C2. `GetTypeFlags` is the OR of one fixed bit per predicate that holds:
with the 45 predicates numbered in source order (`IsArgumentsObject` is 0,
`IsWeakSet` is 44, all distinct), bit `k` of the mask is set exactly when
predicate `k` holds of the value, no bit at position 45 or above is set, and
the mask is 0 exactly when none of the 45 predicates holds. -/
theorem GetTypeFlags_bit_iff_predicate (v : Value) :
    (typeFlagPredicates.length = 45
      ∧ typeFlagPredicates.head? = some Kind.IsArgumentsObject
      ∧ typeFlagPredicates.getLast? = some Kind.IsWeakSet
      ∧ typeFlagPredicates.Nodup)
    ∧ (∀ (k : Nat) (hk : k < typeFlagPredicates.length),
        (GetTypeFlags v).testBit k = v.is (typeFlagPredicates.get ⟨k, hk⟩))
    ∧ (∀ k : Nat, 45 ≤ k → (GetTypeFlags v).testBit k = false)
    ∧ (GetTypeFlags v = 0 ↔ ∀ k ∈ typeFlagPredicates, v.is k = false) := by
  have hlen : typeFlagPredicates.length = 45 := rfl
  have hbit : ∀ (k : Nat) (hk : k < typeFlagPredicates.length),
      (GetTypeFlags v).testBit k = v.is (typeFlagPredicates.get ⟨k, hk⟩) := by
    intro k hk
    rw [GetTypeFlags_eq_flagsFrom, testBit_flagsFrom]
    simp [List.getElem?_eq_getElem hk]
  have hhigh : ∀ k : Nat, 45 ≤ k → (GetTypeFlags v).testBit k = false := by
    intro k hk
    rw [GetTypeFlags_eq_flagsFrom, testBit_flagsFrom]
    have hnone : typeFlagPredicates[k]? = none := by
      rw [List.getElem?_eq_none_iff, hlen]
      exact hk
    simp [hnone]
  refine ⟨⟨hlen, rfl, rfl, by decide⟩, hbit, hhigh, ?_, ?_⟩
  · intro hzero k hk
    obtain ⟨i, hi⟩ := List.get_of_mem hk
    have h := hbit i.1 i.2
    rw [hzero, Nat.zero_testBit] at h
    rw [← hi]
    exact h.symm
  · intro hnone
    apply Nat.eq_of_testBit_eq
    intro i
    rw [Nat.zero_testBit]
    by_cases hi : i < typeFlagPredicates.length
    · rw [hbit i hi]
      exact hnone _ (List.get_mem _ _ _)
    · exact hhigh i (by rw [hlen] at hi; omega)

/-! ## Theorems: batch classifier -/

theorem GetFunctionArgTypes.loop_entry (args : List Value) (j : Nat) :
    ∀ (n i : Nat) (ret : List (Option Elem)), args.length - i = n →
      ret.length = args.length →
      (GetFunctionArgTypes.loop args i ret)[j]?
        = if i ≤ j then
            args[j]?.map (fun v => some (Integer.NewFromUnsigned (GetTypeFlags v)))
          else ret[j]? := by
  intro n
  induction n with
  | zero =>
    intro i ret hn hlen
    have hi : ¬ i < args.length := by omega
    rw [GetFunctionArgTypes.loop, if_neg hi]
    by_cases hij : i ≤ j
    · have h1 : ret[j]? = none := by
        rw [List.getElem?_eq_none_iff]; omega
      have h2 : args[j]? = none := by
        rw [List.getElem?_eq_none_iff]; omega
      simp [hij, h1, h2]
    · simp [hij]
  | succ n ih =>
    intro i ret hn hlen
    have hi : i < args.length := by omega
    rw [GetFunctionArgTypes.loop, if_pos hi]
    simp only []
    rw [ih (i + 1) _ (by omega) (by simpa using hlen)]
    rcases Nat.lt_trichotomy i j with h | h | h
    · have h1 : i + 1 ≤ j := h
      have h2 : i ≤ j := Nat.le_of_lt h
      simp [h1, h2]
    · subst h
      have h1 : ¬ i + 1 ≤ i := by omega
      have h2 : i < ret.length := by omega
      simp [h1, h2, arg, List.getD, List.getElem?_eq_getElem hi]
    · have h1 : ¬ i + 1 ≤ j := by omega
      have h2 : ¬ i ≤ j := by omega
      have h3 : i ≠ j := by omega
      simp [h1, h2, List.getElem?_set, h3]

theorem GetFunctionArgTypes.array_eq_map (args : List Value) :
    GetFunctionArgTypes.array args
      = args.map (fun v => some (Integer.NewFromUnsigned (GetTypeFlags v))) := by
  apply List.ext_getElem?
  intro j
  rw [GetFunctionArgTypes.array,
    GetFunctionArgTypes.loop_entry args j (args.length - 0) 0 _ rfl (by simp)]
  simp

/-- C10. Every element `GetFunctionArgTypes` reports is the mask
`GetTypeFlags` of the argument at that position reduced modulo `2 ^ 32`, the
mask having passed through the 32-bit parameter of
`Integer::NewFromUnsigned`: the reported number is below `2 ^ 32`, none of its
bits at position 32 or above is set, and those positions are the ones of the
13 predicates from `IsString` to `IsWeakSet`. -/
theorem GetFunctionArgTypes_reports_mask_mod_two_pow_32 (iso : Isolate) (args : List Value) :
    GetFunctionArgTypes iso args
        = (iso, Completion.returned (some (Ret.array
            (args.map (fun v => some (Elem.uint32 (GetTypeFlags v % 2 ^ 32)))))))
    ∧ (∀ v : Value, GetTypeFlags v % 2 ^ 32 < 2 ^ 32
        ∧ ∀ k : Nat, 32 ≤ k → (GetTypeFlags v % 2 ^ 32).testBit k = false)
    ∧ typeFlagPredicates.drop 32
        = [ Kind.IsString, Kind.IsSymbolObject, Kind.IsSymbol, Kind.IsTrue,
            Kind.IsTypedArray, Kind.IsUint16Array, Kind.IsUint32Array, Kind.IsUint32,
            Kind.IsUint8Array, Kind.IsUint8ClampedArray, Kind.IsUndefined, Kind.IsWeakMap,
            Kind.IsWeakSet ] := by
  refine ⟨?_, ?_, rfl⟩
  · rw [GetFunctionArgTypes, GetFunctionArgTypes.array_eq_map]
    rfl
  · intro v
    have hlt : GetTypeFlags v % 2 ^ 32 < 2 ^ 32 := Nat.mod_lt _ (by decide)
    refine ⟨hlt, ?_⟩
    intro k hk
    apply Nat.testBit_lt_two_pow
    exact Nat.lt_of_lt_of_le hlt (Nat.pow_le_pow_right (by decide) hk)

/-- C1, at a failing input. For the single argument `sampleString` the full
mask `GetTypeFlags` is `0x100200000` (bits 21 `IsName` and 32 `IsString`), but
the element `GetFunctionArgTypes` reports at position 0 is `0x200000`: the
`IsString` bit is lost at the 32-bit parameter of `Integer::NewFromUnsigned`. -/
theorem GetFunctionArgTypes_loses_IsString_bit :
    GetTypeFlags sampleString = 0x100200000
    ∧ (GetFunctionArgTypes Isolate.initial [sampleString]).2
        = Completion.returned (some (Ret.array [some (Elem.uint32 0x200000)]))
    ∧ (GetFunctionArgTypes Isolate.initial [sampleString]).2
        ≠ Completion.returned (some (Ret.array
            [some (Elem.uint32 (GetTypeFlags sampleString))])) := by
  have h1 : GetTypeFlags sampleString = 0x100200000 := by decide
  have h2 : (GetFunctionArgTypes Isolate.initial [sampleString]).2
      = Completion.returned (some (Ret.array [some (Elem.uint32 0x200000)])) := by
    rw [GetFunctionArgTypes, GetFunctionArgTypes.array_eq_map]
    simp [Integer.NewFromUnsigned, h1]
  refine ⟨h1, h2, ?_⟩
  rw [h2, h1]
  decide

/-! ## Theorems: private slot indirection table -/

theorem IndexToPrivateSymbol_of_lt (env : Environment) (index : Nat)
    (h : index < env.slots.length) :
    IndexToPrivateSymbol env index = some (env.slots.get ⟨index, h⟩).key := by
  simp [IndexToPrivateSymbol, h]

theorem IndexToPrivateSymbol_of_ge (env : Environment) (index : Nat)
    (h : env.slots.length ≤ index) :
    IndexToPrivateSymbol env index = none := by
  have h1 : ¬ index < env.slots.length := by omega
  simp [IndexToPrivateSymbol, h1]

/-- C3. For an object `obj`, a slot index below the number of declared private
symbols and any value `v`, `SetHiddenValue(obj, i, v)` returns `true`, and
`GetHiddenValue(obj, i)` called next returns `v`: both calls resolve the index
through `IndexToPrivateSymbol` to the same private key, the one engine store
and the one engine load being made on that key. -/
theorem SetHiddenValue_then_GetHiddenValue (env : Environment) (iso : Isolate)
    (obj idx v : Value) (index : Nat)
    (hobj : obj.is Kind.IsObject = true) (hidx : idx.is Kind.IsUint32 = true)
    (hval : idx.Uint32Value = some index) (hlt : index < env.slots.length) :
    ∃ key : Private,
      IndexToPrivateSymbol env index = some key
      ∧ (SetHiddenValue env iso [obj, idx, v]).2
          = Completion.returned (some (Ret.boolean true))
      ∧ (GetHiddenValue env (SetHiddenValue env iso [obj, idx, v]).1 [obj, idx]).2
          = Completion.returned (some (Ret.value v))
      ∧ (GetHiddenValue env (SetHiddenValue env iso [obj, idx, v]).1 [obj, idx]).1.calls
          = iso.calls ++ [EngineCall.SetPrivate obj.handle key v,
                          EngineCall.GetPrivate obj.handle key] := by
  refine ⟨(env.slots.get ⟨index, hlt⟩).key, IndexToPrivateSymbol_of_lt env index hlt, ?_⟩
  have hkey := IndexToPrivateSymbol_of_lt env index hlt
  simp [SetHiddenValue, GetHiddenValue, arg, hobj, hidx, hval, hkey,
    Object.SetPrivate, Object.GetPrivate]

/-- Witness of C3: slot 1 of a two-slot table, on a concrete object. -/
theorem SetHiddenValue_then_GetHiddenValue_witness :
    ∃ key : Private,
      IndexToPrivateSymbol sampleEnvironment 1 = some key
      ∧ (SetHiddenValue sampleEnvironment Isolate.initial
            [sampleObject, sampleOne, sampleString]).2
          = Completion.returned (some (Ret.boolean true))
      ∧ (GetHiddenValue sampleEnvironment
            (SetHiddenValue sampleEnvironment Isolate.initial
              [sampleObject, sampleOne, sampleString]).1 [sampleObject, sampleOne]).2
          = Completion.returned (some (Ret.value sampleString))
      ∧ (GetHiddenValue sampleEnvironment
            (SetHiddenValue sampleEnvironment Isolate.initial
              [sampleObject, sampleOne, sampleString]).1 [sampleObject, sampleOne]).1.calls
          = Isolate.initial.calls
              ++ [EngineCall.SetPrivate sampleObject.handle key sampleString,
                  EngineCall.GetPrivate sampleObject.handle key] :=
  SetHiddenValue_then_GetHiddenValue sampleEnvironment Isolate.initial
    sampleObject sampleOne sampleString 1 (by decide) (by decide) (by decide) (by decide)

/-- C4. `GetHiddenValue` and `SetHiddenValue` abort on a failed check whenever
the first argument is not an object, or the second argument is not an unsigned
32-bit integer, or that integer is not below the number of declared private
symbols; the isolate is then left exactly as it was, so the engine's private
get/set was not invoked and no hidden attribute was read or written. -/
theorem hidden_value_checks_abort_before_engine (env : Environment) (iso : Isolate)
    (args : List Value)
    (h : (arg args 0).is Kind.IsObject = false
      ∨ (arg args 1).is Kind.IsUint32 = false
      ∨ ∃ index : Nat, (arg args 1).Uint32Value = some index ∧ env.slots.length ≤ index) :
    GetHiddenValue env iso args = (iso, Completion.aborted)
    ∧ SetHiddenValue env iso args = (iso, Completion.aborted) := by
  rcases h with h | h | ⟨index, hval, hge⟩
  · simp [GetHiddenValue, SetHiddenValue, h]
  · cases hobj : (arg args 0).is Kind.IsObject <;>
      simp [GetHiddenValue, SetHiddenValue, h, hobj]
  · have hkey := IndexToPrivateSymbol_of_ge env index hge
    cases hobj : (arg args 0).is Kind.IsObject <;>
      cases hidx : (arg args 1).is Kind.IsUint32 <;>
      simp [GetHiddenValue, SetHiddenValue, hobj, hidx, hval, hkey]

/-- Witness of C4: index 5 on a two-slot table. -/
theorem hidden_value_checks_abort_before_engine_witness :
    GetHiddenValue sampleEnvironment Isolate.initial [sampleObject, sampleFive]
        = (Isolate.initial, Completion.aborted)
    ∧ SetHiddenValue sampleEnvironment Isolate.initial [sampleObject, sampleFive]
        = (Isolate.initial, Completion.aborted) :=
  hidden_value_checks_abort_before_engine sampleEnvironment Isolate.initial
    [sampleObject, sampleFive] (Or.inr (Or.inr ⟨5, by decide, by decide⟩))

theorem Initialize.privateSymbols_length (slots : List PrivateSymbol) :
    ∀ index : Nat, (Initialize.privateSymbols slots index).length = slots.length := by
  induction slots with
  | nil => intro index; rfl
  | cons s rest ih => intro index; simp [Initialize.privateSymbols, ih]

theorem Initialize.privateSymbols_entry (slots : List PrivateSymbol) :
    ∀ (index j : Nat) (hj : j < slots.length), index + j < 2 ^ 32 →
      (Initialize.privateSymbols slots index)[j]?
        = some (Property.set (slots.get ⟨j, hj⟩).name (Elem.uint32 (index + j))) := by
  induction slots with
  | nil => intro index j hj; simp at hj
  | cons s rest ih =>
    intro index j hj hlt
    cases j with
    | zero =>
      have h0 : index % 2 ^ 32 = index := Nat.mod_eq_of_lt (by omega)
      rw [Initialize.privateSymbols, Integer.NewFromUnsigned, h0]
      simp
    | succ j =>
      have hj2 : j < rest.length := by simpa using hj
      have hstep : (index + 1) % 2 ^ 32 = index + 1 := Nat.mod_eq_of_lt (by omega)
      have h := ih ((index + 1) % 2 ^ 32) j hj2 (by rw [hstep]; omega)
      have hsum : index + 1 + j = index + (j + 1) := by omega
      rw [Initialize.privateSymbols, List.getElem?_cons_succ, h, hstep, hsum]
      simp

/-- C9. For every declared private-symbol list and every position `j` in it
(a `uint32_t` index), `Initialize` publishes the name of the `j`-th declared
symbol with the integer `j`, as the `j`-th property after the 16 predicate
methods, one property per declared symbol in declaration order; and
`IndexToPrivateSymbol(env, j)` returns the key of that same `j`-th symbol. The
number of published names equals the table size. -/
theorem Initialize_publishes_index_of_private_symbol (env : Environment)
    (NODE_PUSH_VAL_TO_ARRAY_MAX j : Nat) (hj : j < env.slots.length) (h32 : j < 2 ^ 32) :
    (Initialize env NODE_PUSH_VAL_TO_ARRAY_MAX)[16 + j]?
        = some (Property.set (env.slots.get ⟨j, hj⟩).name (Elem.uint32 j))
    ∧ IndexToPrivateSymbol env j = some (env.slots.get ⟨j, hj⟩).key
    ∧ (Initialize.privateSymbols env.slots 0).length = env.slots.length
    ∧ (Initialize env NODE_PUSH_VAL_TO_ARRAY_MAX).length = 16 + env.slots.length + 16 := by
  have hpub := Initialize.privateSymbols_entry env.slots 0 j hj (by omega)
  have hlen := Initialize.privateSymbols_length env.slots 0
  refine ⟨?_, IndexToPrivateSymbol_of_lt env j hj, hlen, ?_⟩
  · have hpre : (Initialize.valueMethods
        ++ [Property.method "isAnyArrayBuffer" "IsAnyArrayBuffer"]).length = 16 := rfl
    rw [Initialize, List.append_assoc Initialize.valueMethods, ← List.append_assoc,
      List.append_assoc]
    rw [List.getElem?_append_right (by rw [hpre]; omega)]
    rw [hpre, Nat.add_sub_cancel_left]
    rw [List.getElem?_append_left (by rw [hlen]; exact hj)]
    simpa using hpub
  · simp [Initialize, hlen, Initialize.valueMethods]
    omega

/-- Witness of C9: slot 1 of a two-slot table. -/
theorem Initialize_publishes_index_of_private_symbol_witness :
    (Initialize sampleEnvironment 8)[16 + 1]?
        = some (Property.set "arrow_message_private_symbol" (Elem.uint32 1))
    ∧ IndexToPrivateSymbol sampleEnvironment 1 = some { id := 101 }
    ∧ (Initialize.privateSymbols sampleEnvironment.slots 0).length
        = sampleEnvironment.slots.length
    ∧ (Initialize sampleEnvironment 8).length = 16 + sampleEnvironment.slots.length + 16 :=
  Initialize_publishes_index_of_private_symbol sampleEnvironment 8 1 (by decide) (by decide)

/-! ## Theorems: state introspectors -/

/-- C5. `GetPromiseDetails` never changes the isolate (so neither the state
nor the result of any promise). It produces no result when its argument is not
a promise; for a pending promise it produces a two-entry array whose entry 0
is the pending state and whose entry 1 is absent; for a fulfilled or rejected
promise it produces the array of that state and the promise's result. -/
theorem GetPromiseDetails_snapshot (iso : Isolate) (args : List Value) :
    (GetPromiseDetails iso args).1 = iso
    ∧ ((arg args 0).is Kind.IsPromise = false →
        (GetPromiseDetails iso args).2 = Completion.returned none)
    ∧ ((arg args 0).is Kind.IsPromise = true →
        iso.promiseState (arg args 0).handle = PromiseState.kPending →
        (GetPromiseDetails iso args).2
          = Completion.returned (some (Ret.array
              [some (Elem.int32 PromiseState.kPending.toInt), none])))
    ∧ ((arg args 0).is Kind.IsPromise = true →
        iso.promiseState (arg args 0).handle = PromiseState.kFulfilled →
        (GetPromiseDetails iso args).2
          = Completion.returned (some (Ret.array
              [some (Elem.int32 PromiseState.kFulfilled.toInt),
               some (Elem.value (iso.promiseResult (arg args 0).handle))])))
    ∧ ((arg args 0).is Kind.IsPromise = true →
        iso.promiseState (arg args 0).handle = PromiseState.kRejected →
        (GetPromiseDetails iso args).2
          = Completion.returned (some (Ret.array
              [some (Elem.int32 PromiseState.kRejected.toInt),
               some (Elem.value (iso.promiseResult (arg args 0).handle))]))) := by
  refine ⟨?_, ?_, ?_, ?_, ?_⟩
  · unfold GetPromiseDetails
    split <;> rfl
  · intro h
    simp [GetPromiseDetails, h]
  · intro h hs
    simp [GetPromiseDetails, h, hs, PromiseState.toInt]
  · intro h hs
    simp [GetPromiseDetails, h, hs, PromiseState.toInt]
  · intro h hs
    simp [GetPromiseDetails, h, hs, PromiseState.toInt]

theorem SafeToString_of_detail_string (E : Engine) (iso : Isolate) (args : List Value)
    (str : String) (h : E.ToDetailString iso (arg args 0) = some str) :
    SafeToString E iso args = (iso, Completion.returned (some (Ret.string str))) := by
  simp [SafeToString, h]

theorem SafeToString_of_empty_detail_string (E : Engine) (iso : Isolate) (args : List Value)
    (h : E.ToDetailString iso (arg args 0) = none) :
    SafeToString E iso args = (iso, Completion.aborted) := by
  simp [SafeToString, h]

/-- C7, at a failing input. When the engine's detail-string conversion yields
an empty result, `SafeToString` aborts the process in `ToLocalChecked` instead
of returning a string. -/
theorem SafeToString_aborts_on_empty_detail_string :
    failingEngine.ToDetailString Isolate.initial (arg [sampleObject] 0) = none
    ∧ (SafeToString failingEngine Isolate.initial [sampleObject]).2 = Completion.aborted := by
  exact ⟨rfl, rfl⟩

/-! ## Theorems: promise control primitives and interrupt latch -/

theorem PromiseResolve_of_settled (E : Engine) (iso : Isolate) (p v : Value)
    (hp : p.is Kind.IsPromise = true)
    (hs : iso.promiseState p.handle ≠ PromiseState.kPending) :
    PromiseResolve E iso [p, v] = (iso, Completion.returned none) := by
  simp [PromiseResolve, arg, hp, hs]

theorem PromiseReject_of_settled (E : Engine) (iso : Isolate) (p v : Value)
    (hp : p.is Kind.IsPromise = true)
    (hs : iso.promiseState p.handle ≠ PromiseState.kPending) :
    PromiseReject E iso [p, v] = (iso, Completion.returned none) := by
  simp [PromiseReject, arg, hp, hs]

theorem settleCalls_of_settled (E : Engine) (iso : Isolate) (p : Value)
    (hp : p.is Kind.IsPromise = true)
    (hs : iso.promiseState p.handle ≠ PromiseState.kPending) (calls : List SettleCall) :
    settleCalls E p iso calls = (iso, calls.map (fun _ => Completion.returned none)) := by
  induction calls with
  | nil => rfl
  | cons c cs ih =>
    cases c with
    | resolve v =>
      simp [settleCalls, PromiseResolve_of_settled E iso p v hp hs, ih]
    | reject v =>
      simp [settleCalls, PromiseReject_of_settled E iso p v hp hs, ih]

/-- C6. For a promise that is fulfilled or rejected, `PromiseResolve` and
`PromiseReject` are no-ops whatever the engine's resolver would do: the
isolate is left exactly as it was (the resolver was not invoked, the state and
result of the promise are unchanged) and no return value is set. Hence every
sequence of resolve/reject calls on it returns from each call without a value
and leaves the isolate, and with it the terminal state, unchanged. -/
theorem settled_promise_resolve_reject_noop (E : Engine) (iso : Isolate) (p v : Value)
    (hp : p.is Kind.IsPromise = true)
    (hs : iso.promiseState p.handle = PromiseState.kFulfilled
      ∨ iso.promiseState p.handle = PromiseState.kRejected) :
    PromiseResolve E iso [p, v] = (iso, Completion.returned none)
    ∧ PromiseReject E iso [p, v] = (iso, Completion.returned none)
    ∧ ∀ calls : List SettleCall,
        settleCalls E p iso calls = (iso, calls.map (fun _ => Completion.returned none))
        ∧ (settleCalls E p iso calls).1.promiseState p.handle = iso.promiseState p.handle
        ∧ (settleCalls E p iso calls).1.promiseResult p.handle
            = iso.promiseResult p.handle
        ∧ (settleCalls E p iso calls).1.calls = iso.calls := by
  have hne : iso.promiseState p.handle ≠ PromiseState.kPending := by
    rcases hs with h | h <;> rw [h] <;> decide
  refine ⟨PromiseResolve_of_settled E iso p v hp hne,
    PromiseReject_of_settled E iso p v hp hne, ?_⟩
  intro calls
  have h := settleCalls_of_settled E iso p hp hne calls
  rw [h]
  exact ⟨rfl, rfl, rfl, rfl⟩

/-- Witness of C6: a fulfilled promise, on an engine whose resolver would
settle the promise if it were invoked. -/
theorem settled_promise_resolve_reject_noop_witness :
    PromiseResolve succeedingEngine Isolate.settled [samplePromise, sampleString]
        = (Isolate.settled, Completion.returned none)
    ∧ PromiseReject succeedingEngine Isolate.settled [samplePromise, sampleString]
        = (Isolate.settled, Completion.returned none)
    ∧ ∀ calls : List SettleCall,
        settleCalls succeedingEngine samplePromise Isolate.settled calls
          = (Isolate.settled, calls.map (fun _ => Completion.returned none))
        ∧ (settleCalls succeedingEngine samplePromise Isolate.settled calls).1.promiseState
              samplePromise.handle
            = Isolate.settled.promiseState samplePromise.handle
        ∧ (settleCalls succeedingEngine samplePromise Isolate.settled calls).1.promiseResult
              samplePromise.handle
            = Isolate.settled.promiseResult samplePromise.handle
        ∧ (settleCalls succeedingEngine samplePromise Isolate.settled calls).1.calls
            = Isolate.settled.calls :=
  settled_promise_resolve_reject_noop succeedingEngine Isolate.settled samplePromise
    sampleString (by decide) (Or.inl (by decide))

/-- C8. Engine-level failures in the control primitives are reported and
never abort. `StartSigintWatchdog` returns the boolean `ret == 0` of the
watchdog's `Start`: `true` exactly when `Start` returns 0, `false` otherwise.
`CreatePromise` returns the new resolver when the engine creates one and
returns without a value when it does not. `PromiseResolve` and `PromiseReject`
on a pending promise return the engine's verdict, and `false` when the engine
reports none. -/
theorem engine_failures_are_reported {σ : Type} (w : SigintWatchdogHelper σ) (s : σ)
    (E : Engine) (iso : Isolate) (args : List Value) :
    (StartSigintWatchdog w s
        = ((w.Start s).1, Completion.returned (some (Ret.boolean (decide ((w.Start s).2 = 0))))))
    ∧ ((StartSigintWatchdog w s).2 = Completion.returned (some (Ret.boolean true))
        ↔ (w.Start s).2 = 0)
    ∧ ((w.Start s).2 ≠ 0 →
        (StartSigintWatchdog w s).2 = Completion.returned (some (Ret.boolean false)))
    ∧ (∀ resolver : Value, (E.resolverNew iso).2 = some resolver →
        CreatePromise E iso args
          = ((E.resolverNew iso).1, Completion.returned (some (Ret.value resolver))))
    ∧ ((E.resolverNew iso).2 = none →
        CreatePromise E iso args = ((E.resolverNew iso).1, Completion.returned none))
    ∧ ((arg args 0).is Kind.IsPromise = true →
        iso.promiseState (arg args 0).handle = PromiseState.kPending →
        PromiseResolve E iso args
            = ((E.resolve iso (arg args 0) (arg args 1)).1,
               Completion.returned (some (Ret.boolean
                 ((E.resolve iso (arg args 0) (arg args 1)).2.getD false))))
          ∧ ((E.resolve iso (arg args 0) (arg args 1)).2 = none →
              (PromiseResolve E iso args).2
                = Completion.returned (some (Ret.boolean false))))
    ∧ ((arg args 0).is Kind.IsPromise = true →
        iso.promiseState (arg args 0).handle = PromiseState.kPending →
        PromiseReject E iso args
            = ((E.reject iso (arg args 0) (arg args 1)).1,
               Completion.returned (some (Ret.boolean
                 ((E.reject iso (arg args 0) (arg args 1)).2.getD false))))
          ∧ ((E.reject iso (arg args 0) (arg args 1)).2 = none →
              (PromiseReject E iso args).2
                = Completion.returned (some (Ret.boolean false)))) := by
  refine ⟨rfl, ?_, ?_, ?_, ?_, ?_, ?_⟩
  · simp [StartSigintWatchdog]
  · intro h
    simp [StartSigintWatchdog, h]
  · intro resolver h
    unfold CreatePromise
    cases hr : E.resolverNew iso with
    | mk iso2 r =>
      rw [hr] at h
      simp only [] at h
      subst h
      rfl
  · intro h
    unfold CreatePromise
    cases hr : E.resolverNew iso with
    | mk iso2 r =>
      rw [hr] at h
      simp only [] at h
      subst h
      rfl
  · intro hp hs
    have h1 : PromiseResolve E iso args
        = ((E.resolve iso (arg args 0) (arg args 1)).1,
           Completion.returned (some (Ret.boolean
             ((E.resolve iso (arg args 0) (arg args 1)).2.getD false)))) := by
      simp [PromiseResolve, hp, hs]
    refine ⟨h1, ?_⟩
    intro hnone
    rw [h1, hnone]
    rfl
  · intro hp hs
    have h1 : PromiseReject E iso args
        = ((E.reject iso (arg args 0) (arg args 1)).1,
           Completion.returned (some (Ret.boolean
             ((E.reject iso (arg args 0) (arg args 1)).2.getD false)))) := by
      simp [PromiseReject, hp, hs]
    refine ⟨h1, ?_⟩
    intro hnone
    rw [h1, hnone]
    rfl

end util
end node
